import Mathlib

/-!
Shallow embedding of the federation-destination admin listing endpoint
(`synapse/rest/admin/federation.py`, `FederationDestinationRestServlet.on_GET`)
together with a model of its storage collaborator
(`get_destinations_paginate`) and of the servlet helper functions
(`parse_integer`, `parse_string`, `assert_requester_is_admin`), which are not
part of this repository and are therefore modelled from the spec.
-/

namespace SynapseFederation

/-- One federation destination record, as described in the spec's data model:
`destination` (primary key), `retry_last_ts`, `retry_interval`, optional
`failure_ts` and optional `last_successful_stream_ordering`. -/
structure DestinationRecord where
  destination : String
  retry_last_ts : Int
  retry_interval : Int
  failure_ts : Option Int
  last_successful_stream_ordering : Option Int
deriving DecidableEq

/-- The five recognized sort keys (`DestinationSortOrder` in
`synapse.storage.databases.main.transactions`, imported by the servlet). -/
inductive DestinationSortOrder
  | destination
  | retry_last_ts
  | retry_interval
  | failure_ts
  | last_successful_stream_ordering
deriving DecidableEq

/-- The string value of each sort key, as listed in the servlet's
`allowed_values` tuple (federation.py lines 78-86). -/
def DestinationSortOrder.value : DestinationSortOrder → String
  | .destination => "destination"
  | .retry_last_ts => "retry_last_ts"
  | .retry_interval => "retry_interval"
  | .failure_ts => "failure_ts"
  | .last_successful_stream_ordering => "last_successful_stream_ordering"

/-- Parse a sort-key string; `some` exactly on the five recognized values. -/
def DestinationSortOrder.fromString (s : String) : Option DestinationSortOrder :=
  if s = "destination" then some .destination
  else if s = "retry_last_ts" then some .retry_last_ts
  else if s = "retry_interval" then some .retry_interval
  else if s = "failure_ts" then some .failure_ts
  else if s = "last_successful_stream_ordering" then some .last_successful_stream_ordering
  else none

/-- Pagination direction: the servlet accepts `dir` in `("f", "b")`. -/
inductive Dir
  | f
  | b
deriving DecidableEq

/-- The Matrix error codes used on this endpoint (`synapse.api.errors.Codes`). -/
inductive Codes
  | INVALID_PARAM
  | UNKNOWN
  | FORBIDDEN
deriving DecidableEq

/-- An error response: HTTP status, machine-readable code, message
(`SynapseError(status, msg, errcode)` in the source). -/
structure ApiError where
  status : Nat
  errcode : Codes
  msg : String
deriving DecidableEq

/-- The success response body built by `on_GET` (federation.py lines 92-96):
`destinations`, `total`, and optional `next_token`. -/
structure Response where
  destinations : List DestinationRecord
  total : Nat
  next_token : Option String
deriving DecidableEq

/-- An incoming request: the requester's admin status plus the raw query
parameters, each absent or a string. `fromParam` stands for the query
parameter named `from` (a Lean keyword). -/
structure Request where
  isAdmin : Bool
  fromParam : Option String
  limitParam : Option String
  destinationParam : Option String
  order_byParam : Option String
  dirParam : Option String

/-! ## The Destination Query Engine, modelled from the spec -/

/-- The numeric sort key of a record. For the numeric keys, a null/absent
value sorts as 0 (the spec allows choosing 0 consistently). For the
`destination` key the primary numeric component is the constant 0, so the
ordering is decided entirely by the `destination` tie-break, i.e. plain
lexicographic order on `destination` as the spec requires. -/
def numKey : DestinationSortOrder → DestinationRecord → Int
  | .destination, _ => 0
  | .retry_last_ts, r => r.retry_last_ts
  | .retry_interval, r => r.retry_interval
  | .failure_ts, r => r.failure_ts.getD 0
  | .last_successful_stream_ordering, r => r.last_successful_stream_ordering.getD 0

/-- Forward comparison for sort key `o`: ascending on the key, ties broken
ascending by `destination` (spec §4.1). -/
def recLe (o : DestinationSortOrder) (a b : DestinationRecord) : Prop :=
  numKey o a < numKey o b ∨ (numKey o a = numKey o b ∧ a.destination ≤ b.destination)

instance (o : DestinationSortOrder) : DecidableRel (recLe o) := fun a b => by
  unfold recLe
  infer_instance

instance (o : DestinationSortOrder) : IsTotal DestinationRecord (recLe o) := by
  constructor
  intro a b
  rcases lt_trichotomy (numKey o a) (numKey o b) with h | h | h
  · exact Or.inl (Or.inl h)
  · rcases le_total a.destination b.destination with h' | h'
    · exact Or.inl (Or.inr ⟨h, h'⟩)
    · exact Or.inr (Or.inr ⟨h.symm, h'⟩)
  · exact Or.inr (Or.inl h)

instance (o : DestinationSortOrder) : IsTrans DestinationRecord (recLe o) := by
  constructor
  intro a b c hab hbc
  rcases hab with h1 | ⟨h1, h1'⟩ <;> rcases hbc with h2 | ⟨h2, h2'⟩
  · exact Or.inl (h1.trans h2)
  · exact Or.inl (h2 ▸ h1)
  · exact Or.inl (h1 ▸ h2)
  · exact Or.inr ⟨h1.trans h2, le_trans h1' h2'⟩

/-- The per-direction ordering relation: `forward` is `recLe o`;
`backward` reverses both the primary key order and the tie-break
(spec §4.1), which is exactly the flipped relation. -/
def dirRel (dir : Dir) (o : DestinationSortOrder) :
    DestinationRecord → DestinationRecord → Prop :=
  match dir with
  | .f => recLe o
  | .b => fun a b => recLe o b a

instance (dir : Dir) (o : DestinationSortOrder) : DecidableRel (dirRel dir o) := by
  cases dir <;> (unfold dirRel; infer_instance)

instance (dir : Dir) (o : DestinationSortOrder) :
    IsTotal DestinationRecord (dirRel dir o) := by
  cases dir
  · exact inferInstanceAs (IsTotal DestinationRecord (recLe o))
  · constructor
    intro a b
    exact (total_of (recLe o) b a).imp id id

instance (dir : Dir) (o : DestinationSortOrder) :
    IsTrans DestinationRecord (dirRel dir o) := by
  cases dir
  · exact inferInstanceAs (IsTrans DestinationRecord (recLe o))
  · constructor
    intro a b c hab hbc
    exact trans_of (recLe o) hbc hab

/-- Modelled from the spec: the filter step of `get_destinations_paginate`
(not in this repository). The optional `destination` filter matches on the
`destination` field; the spec leaves substring-vs-equality to the
implementer, equality is chosen here. -/
def filterDest (f : Option String) (db : List DestinationRecord) :
    List DestinationRecord :=
  match f with
  | none => db
  | some s => db.filter (fun r => r.destination == s)

/-- Modelled from the spec: the full ordered, filtered sequence over which
`get_destinations_paginate` windows — filter first, then sort by the chosen
key in the chosen direction with the `destination` tie-break. -/
def ordered_sequence (db : List DestinationRecord) (f : Option String)
    (o : DestinationSortOrder) (dir : Dir) : List DestinationRecord :=
  List.insertionSort (dirRel dir o) (filterDest f db)

/-- Modelled from the spec: the Destination Query Engine
`get_destinations_paginate(start, limit, destination, order_by, direction)`
of `synapse.storage.databases.main.transactions` (not in this repository).
It applies the window `[start, start+limit)` over the full ordered, filtered
sequence and returns the total computed over the filtered (not windowed)
set. -/
def get_destinations_paginate (db : List DestinationRecord) (start limit : Nat)
    (f : Option String) (o : DestinationSortOrder) (dir : Dir) :
    List DestinationRecord × Nat :=
  (((ordered_sequence db f o dir).drop start).take limit, (filterDest f db).length)

/-! ## The servlet helpers, modelled from the spec -/

/-- The numeric value of a decimal digit character, `none` on non-digits. -/
def digitVal (c : Char) : Option Nat :=
  if '0' ≤ c ∧ c ≤ '9' then some (c.toNat - '0'.toNat) else none

/-- Accumulator-style decimal parse of a character list; `none` as soon as a
non-digit appears. -/
def digitsToNat : List Char → Nat → Option Nat
  | [], acc => some acc
  | c :: cs, acc =>
    match digitVal c with
    | some d => digitsToNat cs (acc * 10 + d)
    | none => none

/-- Modelled from the spec: the integer grammar accepted for the `from` and
`limit` query parameters — an optional minus sign followed by at least one
decimal digit (the argument of Python's `int`). -/
def str_to_int (s : String) : Option Int :=
  match s.data with
  | [] => none
  | '-' :: [] => none
  | '-' :: c :: cs => (digitsToNat (c :: cs) 0).map (fun n => -(n : Int))
  | c :: cs => (digitsToNat (c :: cs) 0).map (fun n => (n : Int))

/-- Modelled from the spec: `synapse.http.servlet.parse_integer` (not in this
repository). An absent parameter yields the default; a string that does not
parse as an integer yields a 400 `INVALID_PARAM` error (spec §7: malformed
numeric input is a client error). -/
def parse_integer (v : Option String) (default : Int) : Except ApiError Int :=
  match v with
  | none => .ok default
  | some s =>
    match str_to_int s with
    | some n => .ok n
    | none => .error ⟨400, .INVALID_PARAM, "Query parameter must be an integer"⟩

/-- Modelled from the spec: `parse_string(request, "order_by",
default=DestinationSortOrder.DESTINATION.value, allowed_values=(...))`
(federation.py lines 76-87) fused with interpreting the validated string as
its sort key: an absent parameter yields the default key `destination`; a
value outside the five recognized values yields a 400 `UNKNOWN` error. -/
def parse_sort_order (v : Option String) : Except ApiError DestinationSortOrder :=
  match v with
  | none => .ok .destination
  | some s =>
    match DestinationSortOrder.fromString s with
    | some o => .ok o
    | none => .error ⟨400, .UNKNOWN, "Query parameter order_by must be one of the allowed values"⟩

/-- Modelled from the spec: `parse_string(request, "dir", default="f",
allowed_values=("f", "b"))` (federation.py line 89) fused with interpreting
the validated string as a direction. -/
def parse_dir (v : Option String) : Except ApiError Dir :=
  match v with
  | none => .ok .f
  | some s =>
    if s = "f" then .ok .f
    else if s = "b" then .ok .b
    else .error ⟨400, .UNKNOWN, "Query parameter dir must be one of the allowed values"⟩

/-- The servlet handler `FederationDestinationRestServlet.on_GET`
(federation.py lines 52-96), parametrized by the Query Engine so that the
handler's own control flow is separated from the storage collaborator:
admin check, parse `from`/`limit`, reject negatives with `INVALID_PARAM`,
parse `destination`/`order_by`/`dir`, call the engine, and build the
response with the conditional `next_token`. -/
def on_GET_gen
    (engine : Nat → Nat → Option String → DestinationSortOrder → Dir →
      List DestinationRecord × Nat)
    (req : Request) : Except ApiError Response :=
  if req.isAdmin then
    match parse_integer req.fromParam 0 with
    | .error e => .error e
    | .ok start =>
      match parse_integer req.limitParam 100 with
      | .error e => .error e
      | .ok limit =>
        if start < 0 then
          .error ⟨400, .INVALID_PARAM,
            "Query parameter from must be a string representing a positive integer."⟩
        else if limit < 0 then
          .error ⟨400, .INVALID_PARAM,
            "Query parameter limit must be a string representing a positive integer."⟩
        else
          match parse_sort_order req.order_byParam with
          | .error e => .error e
          | .ok order_by =>
            match parse_dir req.dirParam with
            | .error e => .error e
            | .ok direction =>
              let res := engine start.toNat limit.toNat req.destinationParam
                order_by direction
              .ok { destinations := res.1, total := res.2,
                    next_token :=
                      if start + limit < (res.2 : Int) then
                        some (toString (start + (res.1.length : Int)))
                      else
                        none }
  else
    .error ⟨403, .FORBIDDEN, "You are not a server admin"⟩

/-- The handler applied to the modelled Query Engine over a concrete
destination collection `db`. -/
def on_GET (db : List DestinationRecord) (req : Request) : Except ApiError Response :=
  on_GET_gen (fun start limit f o dir => get_destinations_paginate db start limit f o dir) req

/-- Modelled from the spec: the Query Engine as a state transition on the
destination collection. The spec declares the engine read-only
("Side effects: none (read-only)"), so the returned collection is the input
collection. -/
def get_destinations_paginate_st (db : List DestinationRecord) (start limit : Nat)
    (f : Option String) (o : DestinationSortOrder) (dir : Dir) :
    (List DestinationRecord × Nat) × List DestinationRecord :=
  (get_destinations_paginate db start limit f o dir, db)

/-- The handler with the destination collection threaded through explicitly
as state: each step returns the collection it leaves behind, so that the
frame property (the listing path never mutates the collection) can be
stated. Validation steps do not touch the store; the single store
interaction is `get_destinations_paginate_st`. -/
def on_GET_st (db : List DestinationRecord) (req : Request) :
    Except ApiError Response × List DestinationRecord :=
  if req.isAdmin then
    match parse_integer req.fromParam 0 with
    | .error e => (.error e, db)
    | .ok start =>
      match parse_integer req.limitParam 100 with
      | .error e => (.error e, db)
      | .ok limit =>
        if start < 0 then
          (.error ⟨400, .INVALID_PARAM,
            "Query parameter from must be a string representing a positive integer."⟩, db)
        else if limit < 0 then
          (.error ⟨400, .INVALID_PARAM,
            "Query parameter limit must be a string representing a positive integer."⟩, db)
        else
          match parse_sort_order req.order_byParam with
          | .error e => (.error e, db)
          | .ok order_by =>
            match parse_dir req.dirParam with
            | .error e => (.error e, db)
            | .ok direction =>
              let res := get_destinations_paginate_st db start.toNat limit.toNat
                req.destinationParam order_by direction
              (.ok { destinations := res.1.1, total := res.1.2,
                     next_token :=
                       if start + limit < (res.1.2 : Int) then
                         some (toString (start + (res.1.1.length : Int)))
                       else
                         none }, res.2)
  else
    (.error ⟨403, .FORBIDDEN, "You are not a server admin"⟩, db)

/-! ## Test fixtures used by witness theorems -/

/-- A sample record. -/
def rec1 : DestinationRecord :=
  { destination := "sub1.example.com", retry_last_ts := 10, retry_interval := 100,
    failure_ts := none, last_successful_stream_ordering := some 100 }

/-- A second sample record with a distinct destination. -/
def rec2 : DestinationRecord :=
  { destination := "sub2.example.com", retry_last_ts := 5, retry_interval := 200,
    failure_ts := some 7, last_successful_stream_ordering := none }

/-- A sample well-formed admin request with explicit parameters. -/
def reqOk : Request :=
  { isAdmin := true, fromParam := some "0", limitParam := some "2",
    destinationParam := none, order_byParam := some "destination",
    dirParam := some "f" }

/-- A sample admin request with a negative `from` parameter. -/
def reqNegFrom : Request :=
  { isAdmin := true, fromParam := some "-5", limitParam := none,
    destinationParam := none, order_byParam := none, dirParam := none }

/-- A sample admin request with an unrecognized `order_by` parameter. -/
def reqBadOrder : Request :=
  { isAdmin := true, fromParam := none, limitParam := none,
    destinationParam := none, order_byParam := some "bar", dirParam := none }

/-- A sample non-admin request. -/
def reqNoAdmin : Request :=
  { isAdmin := false, fromParam := some "-5", limitParam := none,
    destinationParam := none, order_byParam := some "bar", dirParam := none }

/-- A trivial engine used to instantiate engine-generic theorems. -/
def engine0 : Nat → Nat → Option String → DestinationSortOrder → Dir →
    List DestinationRecord × Nat :=
  fun _ _ _ _ _ => ([rec1], 5)

end SynapseFederation

namespace SynapseFederation

/-! ## Helper lemmas -/

/-- Any error produced by `parse_integer` is a 400 `INVALID_PARAM`. -/
theorem parse_integer_error_shape {v : Option String} {d : Int} {e : ApiError}
    (h : parse_integer v d = .error e) : e.status = 400 ∧ e.errcode = Codes.INVALID_PARAM := by
  cases v with
  | none => simp [parse_integer] at h
  | some s =>
    cases hs : str_to_int s with
    | some n => simp [parse_integer, hs] at h
    | none =>
      simp only [parse_integer, hs] at h
      cases h
      exact ⟨rfl, rfl⟩

/-- Any error produced by `parse_sort_order` is a 400 `UNKNOWN`. -/
theorem parse_sort_order_error_shape {v : Option String} {e : ApiError}
    (h : parse_sort_order v = .error e) : e.status = 400 ∧ e.errcode = Codes.UNKNOWN := by
  cases v with
  | none => simp [parse_sort_order] at h
  | some s =>
    cases hs : DestinationSortOrder.fromString s with
    | some o => simp [parse_sort_order, hs] at h
    | none =>
      simp only [parse_sort_order, hs] at h
      cases h
      exact ⟨rfl, rfl⟩

/-- `fromString` rejects exactly the strings outside the five recognized
sort-key values. -/
theorem fromString_eq_none_of_not_mem {v : String}
    (h : v ∉ (["destination", "retry_last_ts", "retry_interval", "failure_ts",
      "last_successful_stream_ordering"] : List String)) :
    DestinationSortOrder.fromString v = none := by
  unfold DestinationSortOrder.fromString
  simp only [List.mem_cons, List.not_mem_nil, or_false, not_or] at h
  obtain ⟨h1, h2, h3, h4, h5⟩ := h
  simp [h1, h2, h3, h4, h5]

/-- Mutually related records under `recLe` share a destination. -/
theorem recLe_antisymm_dest {o : DestinationSortOrder} {a b : DestinationRecord}
    (hab : recLe o a b) (hba : recLe o b a) : a.destination = b.destination := by
  rcases hab with h | ⟨h, h'⟩ <;> rcases hba with g | ⟨g, g'⟩
  · exact absurd (h.trans g) (lt_irrefl _)
  · exact absurd h (g ▸ lt_irrefl _)
  · exact absurd g (h ▸ lt_irrefl _)
  · exact le_antisymm h' g'

/-- Two sorted permutations of each other are equal, provided the ordering
relation is antisymmetric on the elements of the lists. -/
theorem sorted_perm_eq_of_antisymm_mem {α : Type} {r : α → α → Prop} :
    ∀ {l₁ l₂ : List α}, List.Perm l₁ l₂ → l₁.Sorted r → l₂.Sorted r →
      (∀ a ∈ l₁, ∀ b ∈ l₁, r a b → r b a → a = b) → l₁ = l₂ := by
  intro l₁
  induction l₁ with
  | nil =>
    intro l₂ hp _ _ _
    exact (hp.symm.eq_nil).symm
  | cons a t₁ ih =>
    intro l₂ hp hs₁ hs₂ hanti
    cases l₂ with
    | nil => exact absurd hp.eq_nil (by simp)
    | cons b t₂ =>
      have hab : a = b := by
        by_cases hcase : a = b
        · exact hcase
        · have ha2 : a ∈ b :: t₂ := hp.mem_iff.1 (List.mem_cons_self a t₁)
          have hb1 : b ∈ a :: t₁ := hp.symm.mem_iff.1 (List.mem_cons_self b t₂)
          have ha2' : a ∈ t₂ := by
            rcases List.mem_cons.1 ha2 with h' | h'
            · exact absurd h' hcase
            · exact h'
          have hb1' : b ∈ t₁ := by
            rcases List.mem_cons.1 hb1 with h' | h'
            · exact absurd h'.symm hcase
            · exact h'
          have hrab : r a b := (List.sorted_cons.1 hs₁).1 b hb1'
          have hrba : r b a := (List.sorted_cons.1 hs₂).1 a ha2'
          exact hanti a (List.mem_cons_self a t₁) b hb1 hrab hrba
      subst hab
      have ht : t₁ = t₂ :=
        ih hp.cons_inv (List.sorted_cons.1 hs₁).2 (List.sorted_cons.1 hs₂).2
          (fun x hx y hy hxy hyx =>
            hanti x (List.mem_cons_of_mem a hx) y (List.mem_cons_of_mem a hy) hxy hyx)
      rw [ht]

/-! ## Claim theorems -/

/-- C9: every request from a non-admin caller yields a 403 response with
error code `FORBIDDEN`, regardless of the query parameters supplied; the
authorization check runs before any parameter parsing, so such a caller
never receives a 400. -/
theorem c9_non_admin_forbidden
    (engine : Nat → Nat → Option String → DestinationSortOrder → Dir →
      List DestinationRecord × Nat)
    (req : Request) (h : req.isAdmin = false) :
    ∃ err, on_GET_gen engine req = .error err ∧ err.status = 403 ∧
      err.errcode = Codes.FORBIDDEN := by
  refine ⟨⟨403, .FORBIDDEN, "You are not a server admin"⟩, ?_, rfl, rfl⟩
  unfold on_GET_gen
  simp [h]

/-- C9 witness: the non-admin sample request (which also carries invalid
`from` and `order_by` values) receives the 403 `FORBIDDEN` error. -/
theorem c9_witness :
    ∃ err, on_GET_gen engine0 reqNoAdmin = .error err ∧ err.status = 403 ∧
      err.errcode = Codes.FORBIDDEN :=
  c9_non_admin_forbidden engine0 reqNoAdmin rfl

/-- C7: the listing path is read-only: threading the destination collection
through the handler as explicit state, every call — succeeding or failing
validation — leaves the collection identical to what it was before. -/
theorem c7_listing_read_only (db : List DestinationRecord) (req : Request) :
    (on_GET_st db req).2 = db := by
  unfold on_GET_st
  split
  · split
    · rfl
    · split
      · rfl
      · split
        · rfl
        · split
          · rfl
          · split
            · rfl
            · split
              · rfl
              · rfl
  · rfl

/-- C8: on every validation-failure path the Query Engine is never invoked:
the handler's result is the same error under any two engines, so the error
is decided before (and independently of) the storage query. -/
theorem c8_error_before_engine
    (engine1 engine2 : Nat → Nat → Option String → DestinationSortOrder → Dir →
      List DestinationRecord × Nat)
    (req : Request) (err : ApiError)
    (h : on_GET_gen engine1 req = .error err) :
    on_GET_gen engine2 req = .error err := by
  unfold on_GET_gen at h ⊢
  cases hadm : req.isAdmin with
  | false => simp only [hadm] at h ⊢; exact h
  | true =>
    simp only [hadm] at h ⊢
    cases hf : parse_integer req.fromParam 0 with
    | error e => simp only [hf] at h ⊢; exact h
    | ok start =>
      simp only [hf] at h ⊢
      cases hl : parse_integer req.limitParam 100 with
      | error e => simp only [hl] at h ⊢; exact h
      | ok limit =>
        simp only [hl] at h ⊢
        by_cases hs : start < 0
        · simp only [if_pos hs] at h ⊢; exact h
        · simp only [if_neg hs] at h ⊢
          by_cases hli : limit < 0
          · simp only [if_pos hli] at h ⊢; exact h
          · simp only [if_neg hli] at h ⊢
            cases ho : parse_sort_order req.order_byParam with
            | error e => simp only [ho] at h ⊢; exact h
            | ok ob =>
              simp only [ho] at h ⊢
              cases hd : parse_dir req.dirParam with
              | error e => simp only [hd] at h ⊢; exact h
              | ok d => rw [hd] at h; simp at h

/-- C8 witness: the sample request with an unrecognized `order_by` fails the
same way under two different engines. -/
theorem c8_witness :
    on_GET_gen engine0 reqBadOrder =
      .error ⟨400, Codes.UNKNOWN,
        "Query parameter order_by must be one of the allowed values"⟩ :=
  c8_error_before_engine (fun _ _ _ _ _ => ([], 0)) engine0 reqBadOrder _ rfl

/-- C3: for every admin request whose `from` parameter parses to a negative
integer or whose `limit` parameter parses to a negative integer, the handler
fails with a 400 response carrying error code `INVALID_PARAM`, regardless of
all other parameter values. -/
theorem c3_negative_param_invalid_param
    (engine : Nat → Nat → Option String → DestinationSortOrder → Dir →
      List DestinationRecord × Nat)
    (req : Request) (hadm : req.isAdmin = true)
    (hneg : (∃ s n, req.fromParam = some s ∧ str_to_int s = some n ∧ n < 0) ∨
            (∃ s n, req.limitParam = some s ∧ str_to_int s = some n ∧ n < 0)) :
    ∃ err, on_GET_gen engine req = .error err ∧ err.status = 400 ∧
      err.errcode = Codes.INVALID_PARAM := by
  rcases hneg with ⟨s, n, hsome, hparse, hn⟩ | ⟨s, n, hsome, hparse, hn⟩
  · have hf : parse_integer req.fromParam 0 = .ok n := by
      rw [hsome]; simp [parse_integer, hparse]
    cases hl : parse_integer req.limitParam 100 with
    | error e =>
      refine ⟨e, ?_, (parse_integer_error_shape hl).1, (parse_integer_error_shape hl).2⟩
      unfold on_GET_gen
      simp [hadm, hf, hl]
    | ok m =>
      refine ⟨⟨400, .INVALID_PARAM,
        "Query parameter from must be a string representing a positive integer."⟩,
        ?_, rfl, rfl⟩
      unfold on_GET_gen
      simp [hadm, hf, hl, hn]
  · cases hf : parse_integer req.fromParam 0 with
    | error e =>
      refine ⟨e, ?_, (parse_integer_error_shape hf).1, (parse_integer_error_shape hf).2⟩
      unfold on_GET_gen
      simp [hadm, hf]
    | ok st =>
      have hl : parse_integer req.limitParam 100 = .ok n := by
        rw [hsome]; simp [parse_integer, hparse]
      by_cases hst : st < 0
      · refine ⟨⟨400, .INVALID_PARAM,
          "Query parameter from must be a string representing a positive integer."⟩,
          ?_, rfl, rfl⟩
        unfold on_GET_gen
        simp [hadm, hf, hl, hst]
      · refine ⟨⟨400, .INVALID_PARAM,
          "Query parameter limit must be a string representing a positive integer."⟩,
          ?_, rfl, rfl⟩
        unfold on_GET_gen
        simp [hadm, hf, hl, hst, hn]

/-- C3 witness: the sample admin request with `from=-5` receives a 400
`INVALID_PARAM` error. -/
theorem c3_witness :
    ∃ err, on_GET_gen engine0 reqNegFrom = .error err ∧ err.status = 400 ∧
      err.errcode = Codes.INVALID_PARAM :=
  c3_negative_param_invalid_param engine0 reqNegFrom rfl
    (Or.inl ⟨"-5", -5, rfl, by decide, by decide⟩)

/-- C4: for every admin request with non-negative (or absent) `from` and
`limit`, an `order_by` value outside the five recognized sort keys or a
`dir` value that is neither "f" nor "b" makes the handler fail with a 400
response carrying error code `UNKNOWN`. -/
theorem c4_unrecognized_value_unknown
    (engine : Nat → Nat → Option String → DestinationSortOrder → Dir →
      List DestinationRecord × Nat)
    (req : Request) (hadm : req.isAdmin = true)
    (start limit : Int)
    (hf : parse_integer req.fromParam 0 = .ok start) (hs : 0 ≤ start)
    (hl : parse_integer req.limitParam 100 = .ok limit) (hli : 0 ≤ limit)
    (hbad : (∃ v, req.order_byParam = some v ∧
               v ∉ (["destination", "retry_last_ts", "retry_interval", "failure_ts",
                     "last_successful_stream_ordering"] : List String)) ∨
            (∃ v, req.dirParam = some v ∧ v ≠ "f" ∧ v ≠ "b")) :
    ∃ err, on_GET_gen engine req = .error err ∧ err.status = 400 ∧
      err.errcode = Codes.UNKNOWN := by
  have hs' : ¬start < 0 := not_lt.2 hs
  have hli' : ¬limit < 0 := not_lt.2 hli
  rcases hbad with ⟨v, hv, hmem⟩ | ⟨v, hv, hv1, hv2⟩
  · have ho : parse_sort_order req.order_byParam =
        .error ⟨400, .UNKNOWN, "Query parameter order_by must be one of the allowed values"⟩ := by
      rw [hv]
      simp [parse_sort_order, fromString_eq_none_of_not_mem hmem]
    refine ⟨⟨400, .UNKNOWN, "Query parameter order_by must be one of the allowed values"⟩,
      ?_, rfl, rfl⟩
    unfold on_GET_gen
    simp [hadm, hf, hl, hs', hli', ho]
  · cases ho : parse_sort_order req.order_byParam with
    | error e =>
      refine ⟨e, ?_, (parse_sort_order_error_shape ho).1, (parse_sort_order_error_shape ho).2⟩
      unfold on_GET_gen
      simp [hadm, hf, hl, hs', hli', ho]
    | ok ob =>
      have hd : parse_dir req.dirParam =
          .error ⟨400, .UNKNOWN, "Query parameter dir must be one of the allowed values"⟩ := by
        rw [hv]
        simp [parse_dir, hv1, hv2]
      refine ⟨⟨400, .UNKNOWN, "Query parameter dir must be one of the allowed values"⟩,
        ?_, rfl, rfl⟩
      unfold on_GET_gen
      simp [hadm, hf, hl, hs', hli', ho, hd]

/-- C4 witness: the sample admin request with `order_by=bar` receives a 400
`UNKNOWN` error. -/
theorem c4_witness :
    ∃ err, on_GET_gen engine0 reqBadOrder = .error err ∧ err.status = 400 ∧
      err.errcode = Codes.UNKNOWN :=
  c4_unrecognized_value_unknown engine0 reqBadOrder rfl 0 100 rfl (by decide) rfl
    (by decide) (Or.inl ⟨"bar", rfl, by decide⟩)

/-- C6: an absent parameter is replaced by its default — `from` by 0,
`limit` by 100, `order_by` by `destination`, `dir` by "f" — and the request
then proceeds exactly as if that value had been supplied. -/
theorem c6_defaults
    (engine : Nat → Nat → Option String → DestinationSortOrder → Dir →
      List DestinationRecord × Nat)
    (req : Request) :
    on_GET_gen engine { req with fromParam := none } =
      on_GET_gen engine { req with fromParam := some "0" } ∧
    on_GET_gen engine { req with limitParam := none } =
      on_GET_gen engine { req with limitParam := some "100" } ∧
    on_GET_gen engine { req with order_byParam := none } =
      on_GET_gen engine { req with order_byParam := some "destination" } ∧
    on_GET_gen engine { req with dirParam := none } =
      on_GET_gen engine { req with dirParam := some "f" } := by
  refine ⟨?_, ?_, ?_, ?_⟩ <;> rfl

/-- C1: on every successfully validated request the response carries
`next_token` if and only if `start + limit < total`, and when present its
value is the decimal string representation of `start + len(records)`. -/
theorem c1_next_token
    (engine : Nat → Nat → Option String → DestinationSortOrder → Dir →
      List DestinationRecord × Nat)
    (req : Request) (hadm : req.isAdmin = true)
    (start limit : Int)
    (hf : parse_integer req.fromParam 0 = .ok start) (hs : 0 ≤ start)
    (hl : parse_integer req.limitParam 100 = .ok limit) (hli : 0 ≤ limit)
    (ob : DestinationSortOrder) (ho : parse_sort_order req.order_byParam = .ok ob)
    (d : Dir) (hd : parse_dir req.dirParam = .ok d) :
    ∃ resp, on_GET_gen engine req = .ok resp ∧
      (start + limit < (resp.total : Int) ↔ resp.next_token ≠ none) ∧
      (∀ t, resp.next_token = some t →
        t = toString (start + (resp.destinations.length : Int))) := by
  have hs' : ¬start < 0 := not_lt.2 hs
  have hli' : ¬limit < 0 := not_lt.2 hli
  set res := engine start.toNat limit.toNat req.destinationParam ob d with hr
  have hres : on_GET_gen engine req = .ok
      { destinations := res.1, total := res.2,
        next_token :=
          if start + limit < (res.2 : Int) then
            some (toString (start + (res.1.length : Int)))
          else none } := by
    unfold on_GET_gen
    simp [hadm, hf, hl, hs', hli', ho, hd, hr]
  refine ⟨_, hres, ?_, ?_⟩
  · by_cases hc : start + limit < (res.2 : Int)
    · simp [hc]
    · simp [hc]
  · intro t ht
    by_cases hc : start + limit < (res.2 : Int)
    · simp only [hc, if_pos] at ht
      simp at ht
      exact ht.symm
    · simp [hc] at ht

/-- C1 witness: the sample request (`from=0`, `limit=2`) against an engine
reporting 1 record of 5 total satisfies the `next_token` contract. -/
theorem c1_witness :
    ∃ resp, on_GET_gen engine0 reqOk = .ok resp ∧
      (0 + 2 < (resp.total : Int) ↔ resp.next_token ≠ none) ∧
      (∀ t, resp.next_token = some t →
        t = toString (0 + (resp.destinations.length : Int))) :=
  c1_next_token engine0 reqOk rfl 0 2 rfl (by decide) rfl (by decide)
    DestinationSortOrder.destination rfl Dir.f rfl

/-- C10: on every successfully validated request the handler passes the
engine's results through unchanged: the response's `destinations` is exactly
the engine's record list and the response's `total` is exactly the engine's
count. -/
theorem c10_engine_passthrough
    (engine : Nat → Nat → Option String → DestinationSortOrder → Dir →
      List DestinationRecord × Nat)
    (req : Request) (hadm : req.isAdmin = true)
    (start limit : Int)
    (hf : parse_integer req.fromParam 0 = .ok start) (hs : 0 ≤ start)
    (hl : parse_integer req.limitParam 100 = .ok limit) (hli : 0 ≤ limit)
    (ob : DestinationSortOrder) (ho : parse_sort_order req.order_byParam = .ok ob)
    (d : Dir) (hd : parse_dir req.dirParam = .ok d) :
    ∃ resp, on_GET_gen engine req = .ok resp ∧
      resp.destinations = (engine start.toNat limit.toNat req.destinationParam ob d).1 ∧
      resp.total = (engine start.toNat limit.toNat req.destinationParam ob d).2 := by
  have hs' : ¬start < 0 := not_lt.2 hs
  have hli' : ¬limit < 0 := not_lt.2 hli
  have hres : on_GET_gen engine req = .ok
      { destinations := (engine start.toNat limit.toNat req.destinationParam ob d).1,
        total := (engine start.toNat limit.toNat req.destinationParam ob d).2,
        next_token :=
          if start + limit <
              ((engine start.toNat limit.toNat req.destinationParam ob d).2 : Int) then
            some (toString (start +
              ((engine start.toNat limit.toNat req.destinationParam ob d).1.length : Int)))
          else none } := by
    unfold on_GET_gen
    simp [hadm, hf, hl, hs', hli', ho, hd]
  exact ⟨_, hres, rfl, rfl⟩

/-- C10 witness: the sample request's response carries exactly the engine's
record list and count. -/
theorem c10_witness :
    ∃ resp, on_GET_gen engine0 reqOk = .ok resp ∧
      resp.destinations = (engine0 0 2 none DestinationSortOrder.destination Dir.f).1 ∧
      resp.total = (engine0 0 2 none DestinationSortOrder.destination Dir.f).2 :=
  c10_engine_passthrough engine0 reqOk rfl 0 2 rfl (by decide) rfl (by decide)
    DestinationSortOrder.destination rfl Dir.f rfl

/-- C2: for all `start ≥ 0` and `limit ≥ 0` the engine returns exactly
`min(limit, max(0, total - start))` records, and when `start` reaches or
exceeds the length of the filtered ordered sequence the record list is
empty (and no error is raised: the engine is a total function). -/
theorem c2_page_length (db : List DestinationRecord) (start limit : Nat)
    (f : Option String) (o : DestinationSortOrder) (dir : Dir) :
    ((get_destinations_paginate db start limit f o dir).1.length : Int) =
      min (limit : Int)
        (max 0 (((get_destinations_paginate db start limit f o dir).2 : Int) - (start : Int))) ∧
    ((get_destinations_paginate db start limit f o dir).2 ≤ start →
      (get_destinations_paginate db start limit f o dir).1 = []) := by
  have hlen : (ordered_sequence db f o dir).length = (filterDest f db).length :=
    List.length_insertionSort _ _
  constructor
  · simp only [get_destinations_paginate]
    simp only [List.length_take, List.length_drop, hlen]
    omega
  · intro h
    simp only [get_destinations_paginate] at h ⊢
    have h' : (ordered_sequence db f o dir).length ≤ start := by rw [hlen]; exact h
    rw [List.drop_eq_nil_of_le h', List.take_nil]

/-- C2 witness: the page-length formula evaluated at a concrete collection
and window. -/
theorem c2_witness :
    ((get_destinations_paginate [rec1, rec2] 0 1 none
        DestinationSortOrder.destination Dir.f).1.length : Int) =
      min ((1 : Nat) : Int)
        (max 0 (((get_destinations_paginate [rec1, rec2] 0 1 none
          DestinationSortOrder.destination Dir.f).2 : Int) - ((0 : Nat) : Int))) ∧
    ((get_destinations_paginate [rec1, rec2] 0 1 none
        DestinationSortOrder.destination Dir.f).2 ≤ 0 →
      (get_destinations_paginate [rec1, rec2] 0 1 none
        DestinationSortOrder.destination Dir.f).1 = []) :=
  c2_page_length [rec1, rec2] 0 1 none DestinationSortOrder.destination Dir.f

/-- C5: for a fixed, unchanged dataset with pairwise-distinct destination
names (the spec's uniqueness invariant) and any fixed sort key and filter,
the backward ordered sequence is exactly the reverse of the forward ordered
sequence: both the primary key order and the destination tie-break are
reversed. -/
theorem c5_backward_reverses_forward (db : List DestinationRecord)
    (f : Option String) (o : DestinationSortOrder)
    (hnd : (db.map DestinationRecord.destination).Nodup) :
    ordered_sequence db f o Dir.b = (ordered_sequence db f o Dir.f).reverse := by
  have hsubl : List.Sublist (filterDest f db) db := by
    cases f with
    | none => exact List.Sublist.refl db
    | some s => exact List.filter_sublist db
  have hndl : ((filterDest f db).map DestinationRecord.destination).Nodup :=
    hnd.sublist (hsubl.map DestinationRecord.destination)
  have hinj := List.inj_on_of_nodup_map hndl
  have hperm1 : List.Perm (ordered_sequence db f o Dir.b) (filterDest f db) :=
    List.perm_insertionSort _ _
  have hsort1 : (ordered_sequence db f o Dir.b).Sorted (dirRel Dir.b o) :=
    List.sorted_insertionSort _ _
  have hperm2 : List.Perm ((ordered_sequence db f o Dir.f).reverse) (filterDest f db) :=
    (List.reverse_perm _).trans (List.perm_insertionSort _ _)
  have hsortf : (ordered_sequence db f o Dir.f).Sorted (recLe o) :=
    List.sorted_insertionSort _ _
  have hsort2 : ((ordered_sequence db f o Dir.f).reverse).Sorted (dirRel Dir.b o) :=
    List.pairwise_reverse.2 hsortf
  apply sorted_perm_eq_of_antisymm_mem (hperm1.trans hperm2.symm) hsort1 hsort2
  intro a ha b hb hab hba
  have ha' : a ∈ filterDest f db := hperm1.subset ha
  have hb' : b ∈ filterDest f db := hperm1.subset hb
  exact hinj ha' hb' (recLe_antisymm_dest hba hab)

/-- C5 witness: on a concrete two-record collection with distinct
destinations, the backward sequence on `retry_last_ts` is the reverse of the
forward one. -/
theorem c5_witness :
    ordered_sequence [rec1, rec2] none DestinationSortOrder.retry_last_ts Dir.b =
      (ordered_sequence [rec1, rec2] none DestinationSortOrder.retry_last_ts Dir.f).reverse :=
  c5_backward_reverses_forward [rec1, rec2] none DestinationSortOrder.retry_last_ts
    (by decide)

end SynapseFederation

